import Mathlib

/-!
Verification of the mcp-servers repository: three MCP servers
(googlemaps-directions-server, navitime-transit-server, places-server),
each a thin dispatcher that validates untyped tool-call arguments,
translates them into the query parameters of one upstream HTTP GET, and
maps upstream failures into either a tool-result error envelope or a
protocol-level error.

The JavaScript/TypeScript sources are shallowly embedded: JSON-like
runtime values become the inductive `JSValue`, property access and
truthiness follow the JS semantics the code relies on, and code that can
throw is modelled in `Option`/`Except` (with `none`/`.error` standing for
a thrown exception). Each definition is translated from one place in the
source, cited in its doc comment.
-/

/-- Model of the JS runtime values the servers handle (JSON values plus
`undefined`). JS numbers are modelled as integers: the servers perform no
arithmetic, and every number a claim touches is integral. `NaN` and
non-integral numbers are not representable; no claim depends on them.
Object field lists are as produced by JSON parsing: duplicate-free, and
all operations act on the first occurrence of a key. -/
inductive JSValue where
  | vundefined : JSValue
  | vnull : JSValue
  | vbool : Bool → JSValue
  | vnum : Int → JSValue
  | vstr : String → JSValue
  | varr : List JSValue → JSValue
  | vobj : List (String × JSValue) → JSValue

/-- Result of the JS `typeof` operator on a modelled value. -/
def typeofStr : JSValue → String
  | .vundefined => "undefined"
  | .vnull => "object"
  | .vbool _ => "boolean"
  | .vnum _ => "number"
  | .vstr _ => "string"
  | .varr _ => "object"
  | .vobj _ => "object"

/-- JS truthiness of a modelled value (`0`, `""`, `null`, `undefined`,
`false` are falsy; every object and array is truthy). -/
def jsTruthy : JSValue → Bool
  | .vundefined => false
  | .vnull => false
  | .vbool b => b
  | .vnum n => n != 0
  | .vstr s => s != ""
  | .varr _ => true
  | .vobj _ => true

/-- First-occurrence association lookup in an object field list. -/
def lookupField : List (String × JSValue) → String → Option JSValue
  | [], _ => none
  | (k, v) :: rest, key => if k = key then some v else lookupField rest key

/-- Strict field lookup: `some v` only when the value is an object that
has the key. Used in theorem statements to speak about presence/absence
of a field. -/
def objGet : JSValue → String → Option JSValue
  | .vobj fs, k => lookupField fs k
  | _, _ => none

/-- JS property access `v.k`, with `none` modelling the TypeError thrown
when the base is `null` or `undefined`. Access on primitives yields
`undefined`; arrays have no named fields in this model (JSON-derived
arrays carry none). -/
def jsGetProp : JSValue → String → Option JSValue
  | .vundefined, _ => none
  | .vnull, _ => none
  | .vobj fs, k => some ((lookupField fs k).getD .vundefined)
  | _, _ => some .vundefined

/-- Property access at a point where the code has already established the
base is not nullish, so no TypeError can occur. -/
def propD (v : JSValue) (k : String) : JSValue :=
  (jsGetProp v k).getD .vundefined

/-- JS `a || b`: `a` when truthy, else `b`. -/
def jsOr (a b : JSValue) : JSValue :=
  if jsTruthy a then a else b

/-- JS `a ?? b`: `b` only when `a` is `null` or `undefined`. -/
def jsNullish (a b : JSValue) : JSValue :=
  match a with
  | .vundefined => b
  | .vnull => b
  | _ => a

/-- True iff the value is the string `s` (JS strict equality against a
string literal, as in the check of a field against a constant). -/
def jsIsStr : JSValue → String → Bool
  | .vstr t, s => t == s
  | _, _ => false

/-- True iff the value is neither `null` nor `undefined` (property access
on it cannot throw). -/
def notNullish : JSValue → Bool
  | .vundefined => false
  | .vnull => false
  | _ => true

/-- True iff the value is `undefined`. -/
def isUndefinedV : JSValue → Bool
  | .vundefined => true
  | _ => false

/-- Field assignment on an object: an existing key keeps its position and
gets the new value, a new key is appended — the semantics of JS property
assignment on a JSON-derived object. -/
def setField : List (String × JSValue) → String → JSValue → List (String × JSValue)
  | [], key, x => [(key, x)]
  | (k, v) :: rest, key, x =>
    if k = key then (k, x) :: rest else (k, v) :: setField rest key x

/-- Property assignment `v.k = x`. The code only assigns to values it has
already read as truthy objects, so the non-object branch is unreachable
in every use below. -/
def setProp (v : JSValue) (k : String) (x : JSValue) : JSValue :=
  match v with
  | .vobj fs => .vobj (setField fs k x)
  | other => other

/-- JS `str.includes(c)` for a single-character search string: membership
of the character in the code-point list. -/
def jsIncludes (s : String) (c : Char) : Bool :=
  s.data.contains c

mutual

/-- String coercion of a value, as performed inside a JS template
literal. Arrays coerce via `join(",")` with nullish elements becoming
empty; plain objects become `[object Object]`. -/
def jsTemplate : JSValue → String
  | .vundefined => "undefined"
  | .vnull => "null"
  | .vbool true => "true"
  | .vbool false => "false"
  | .vnum n => toString n
  | .vstr s => s
  | .vobj _ => "[object Object]"
  | .varr l => jsArrayJoin l

/-- `Array.prototype.join(",")` as used by JS array-to-string coercion. -/
def jsArrayJoin : List JSValue → String
  | [] => ""
  | x :: xs =>
    let head := match x with
      | .vundefined => ""
      | .vnull => ""
      | v => jsTemplate v
    match xs with
    | [] => head
    | _ => head ++ "," ++ jsArrayJoin xs
end

/-- Argument validator of the directions server
(googlemaps-directions-server/src/index.ts, `isValidDirectionsArgs`):
`typeof args === 'object' && args !== null && typeof args.origin ===
'string' && typeof args.destination === 'string' && (args.mode ===
undefined || typeof args.mode === 'string')`. The `Option` layer records
that property access could in principle throw; the leading guards make
that impossible, which `validators_never_throw` below proves. -/
def isValidDirectionsArgs (args : JSValue) : Option Bool :=
  if typeofStr args != "object" then some false
  else if (match args with | .vnull => true | _ => false) then some false
  else match jsGetProp args "origin" with
  | none => none
  | some ov =>
    if typeofStr ov != "string" then some false
    else match jsGetProp args "destination" with
    | none => none
    | some dv =>
      if typeofStr dv != "string" then some false
      else match jsGetProp args "mode" with
      | none => none
      | some mv => some (isUndefinedV mv || typeofStr mv == "string")

/-- Argument validator of the transit server
(navitime-transit-server/src/index.ts, `isValidRouteTransitArgs`):
requires string `start` and `goal`; `start_time`, `term`, `limit`,
`datum`, `coord_unit` must each be undefined or a string. -/
def isValidRouteTransitArgs (args : JSValue) : Option Bool :=
  if typeofStr args != "object" then some false
  else if (match args with | .vnull => true | _ => false) then some false
  else match jsGetProp args "start" with
  | none => none
  | some sv =>
    if typeofStr sv != "string" then some false
    else match jsGetProp args "goal" with
    | none => none
    | some gv =>
      if typeofStr gv != "string" then some false
      else match jsGetProp args "start_time" with
      | none => none
      | some t1 =>
        if !(isUndefinedV t1 || typeofStr t1 == "string") then some false
        else match jsGetProp args "term" with
        | none => none
        | some t2 =>
          if !(isUndefinedV t2 || typeofStr t2 == "string") then some false
          else match jsGetProp args "limit" with
          | none => none
          | some t3 =>
            if !(isUndefinedV t3 || typeofStr t3 == "string") then some false
            else match jsGetProp args "datum" with
            | none => none
            | some t4 =>
              if !(isUndefinedV t4 || typeofStr t4 == "string") then some false
              else match jsGetProp args "coord_unit" with
              | none => none
              | some t5 => some (isUndefinedV t5 || typeofStr t5 == "string")

/-- Request-side time normalization of the transit server
(navitime-transit-server/src/index.ts, `normalizeTime`): pass a string
containing `+` through unchanged, else append `+09:00`. -/
def normalizeTime (timeStr : String) : String :=
  if jsIncludes timeStr '+' then timeStr else timeStr ++ "+09:00"

/-- Translation of the `start_time` argument
(navitime-transit-server/src/index.ts, lines 138-140): a truthy value is
normalized, a falsy one (absent, or the empty string) is replaced by the
fixed literal. After validation the value is a string or undefined, so
the non-string truthy branch is unreachable. -/
def transitStartTime (v : JSValue) : String :=
  if jsTruthy v then
    match v with
    | .vstr s => normalizeTime s
    | _ => ""
  else "2024-02-11T12:00:00+09:00"

/-- Protocol error codes used by the servers (from the MCP SDK). -/
inductive ErrCode where
  | invalidRequest : ErrCode
  | methodNotFound : ErrCode
  | invalidParams : ErrCode
  | internalError : ErrCode
deriving DecidableEq

/-- The single upstream GET a handler issues: the request path relative
to the configured base URL, and the translated query parameters exactly
as written at the call site. Fixed client configuration (base URL, the
places API key merged from the client `params`, the transit auth
headers) is outside the translated parameter set. -/
structure HttpRequest where
  path : String
  params : List (String × JSValue)

/-- An axios error: `response` holds `error.response.data` when the
upstream answered with a non-2xx status, and is `none` for a
network-level failure; `message` is the error's own message text. -/
structure AxiosErr where
  response : Option JSValue
  message : String

/-- Exceptions a handler body can throw besides axios errors: an
`McpError` (protocol error) or a TypeError from property access. -/
inductive JsExc where
  | mcpError : ErrCode → String → JsExc
  | typeError : JsExc
deriving DecidableEq

/-- What a tool-call dispatcher does before (or instead of) any HTTP
traffic: raise a protocol error, let a non-protocol exception propagate,
or issue exactly one GET. -/
inductive DispatchOutcome where
  | protocolError : ErrCode → String → DispatchOutcome
  | thrown : DispatchOutcome
  | httpCall : HttpRequest → DispatchOutcome

/-- One entry of a tool result's `content` array; `ctype` is the
`type` field, always the literal `text` here. -/
structure ToolContent where
  ctype : String
  text : JSValue

/-- The tool-result envelope `{content, isError?}`; an absent `isError`
field is modelled as `false`. -/
structure ToolResult where
  content : List ToolContent
  isError : Bool

/-- Final outcome of a tool call as seen by the protocol layer. -/
inductive ToolOutcome where
  | protocolError : ErrCode → String → ToolOutcome
  | thrown : ToolOutcome
  | result : ToolResult → ToolOutcome

/-- Lower-case hex digit for a nibble (code point 48 + n for digits,
87 + n for letters). -/
def hexDigitChar (n : Nat) : Char :=
  Char.ofNat (if n < 10 then 48 + n else 87 + n)

/-- JSON string escaping as performed by `JSON.stringify`. -/
def jsonEscapeChar (c : Char) : String :=
  if c = '"' then "\\\""
  else if c = '\\' then "\\\\"
  else if c = '\n' then "\\n"
  else if c = '\r' then "\\r"
  else if c = '\t' then "\\t"
  else if c = Char.ofNat 8 then "\\b"
  else if c = Char.ofNat 12 then "\\f"
  else if c.toNat < 32 then
    "\\u00" ++ String.mk [hexDigitChar (c.toNat / 16), hexDigitChar (c.toNat % 16)]
  else String.mk [c]

/-- Quote and escape a string for JSON output. -/
def jsonQuote (s : String) : String :=
  "\"" ++ String.join (s.data.map jsonEscapeChar) ++ "\""

/-- Layout of a JSON array/object with indent 2, as produced by
`JSON.stringify(-, null, 2)`: items one per line at `ind` plus two
spaces, closing bracket back at `ind`. -/
def wrapJson (opening closing ind : String) (items : List String) : String :=
  if items.isEmpty then opening ++ closing
  else
    opening ++ "\n" ++ String.intercalate ",\n" (items.map (fun s => ind ++ "  " ++ s))
      ++ "\n" ++ ind ++ closing

mutual

/-- `JSON.stringify(v, null, 2)` at indent context `ind`; `none` models
the undefined result on an undefined input. No theorem below inspects
the serialized text of a success envelope; error texts, which theorems
do inspect, never go through this function. -/
def jsonStr (ind : String) : JSValue → Option String
  | .vundefined => none
  | .vnull => some "null"
  | .vbool true => some "true"
  | .vbool false => some "false"
  | .vnum n => some (toString n)
  | .vstr s => some (jsonQuote s)
  | .varr l => some (wrapJson "[" "]" ind (jsonArrItems (ind ++ "  ") l))
  | .vobj fs => some (wrapJson "\x7b" "\x7d" ind (jsonObjItems (ind ++ "  ") fs))

/-- Array elements; an undefined element serializes as `null`. -/
def jsonArrItems (ind : String) : List JSValue → List String
  | [] => []
  | x :: xs => ((jsonStr ind x).getD "null") :: jsonArrItems ind xs

/-- Object entries; a field with undefined value is skipped. -/
def jsonObjItems (ind : String) : List (String × JSValue) → List String
  | [] => []
  | (k, x) :: xs =>
    match jsonStr ind x with
    | none => jsonObjItems ind xs
    | some s => (jsonQuote k ++ ": " ++ s) :: jsonObjItems ind xs

end

/-- The `text` value placed in a success envelope:
`JSON.stringify(response.data, null, 2)`. -/
def jsonStringifyV (v : JSValue) : JSValue :=
  match jsonStr "" v with
  | some s => .vstr s
  | none => .vundefined

/-- Success envelope `{content: [{type: 'text', text: JSON.stringify(data,
null, 2)}]}` (no `isError` field, modelled as `false`). -/
def okEnvelope (body : JSValue) : ToolResult :=
  ⟨[⟨"text", jsonStringifyV body⟩], false⟩

/-- Error envelope `{content: [{type: 'text', text: msg}], isError: true}`. -/
def errEnvelope (msg : String) : ToolResult :=
  ⟨[⟨"text", .vstr msg⟩], true⟩

/-- The optional chain `error.response?.data?.<field>`: undefined when
there is no response or its data is nullish. -/
def axiosChain (e : AxiosErr) (field : String) : JSValue :=
  match e.response with
  | none => .vundefined
  | some d =>
    match d with
    | .vundefined => .vundefined
    | .vnull => .vundefined
    | _ => propD d field

/-- Error text of the directions server catch blocks:
`Google Maps API error: ${error.response?.data?.error_message || error.message}`. -/
def directionsErrText (e : AxiosErr) : String :=
  "Google Maps API error: " ++ jsTemplate (jsOr (axiosChain e "error_message") (.vstr e.message))

/-- Error text of the transit server catch block:
`Navitime API error: ${error.response?.data?.message ?? error.message}`. -/
def navitimeErrText (e : AxiosErr) : String :=
  "Navitime API error: " ++ jsTemplate (jsNullish (axiosChain e "message") (.vstr e.message))

/-- Error text of the places server catch block:
`Google Places API error: ${error.response?.data?.error_message || error.message}`. -/
def placesErrText (e : AxiosErr) : String :=
  "Google Places API error: " ++ jsTemplate (jsOr (axiosChain e "error_message") (.vstr e.message))

/-- Directions tool dispatcher up to the HTTP boundary
(googlemaps-directions-server/src/index.ts, CallToolRequestSchema
handler): unknown name and invalid arguments throw `McpError` before the
try block; valid arguments reach one GET with origin, destination,
`mode || 'driving'` and the API key. The validator cannot throw, so its
`none` case is unreachable. -/
def directionsToolPre (apiKey name : String) (args : JSValue) : DispatchOutcome :=
  if name ≠ "get_directions" then
    .protocolError .methodNotFound ("Unknown tool: " ++ name)
  else match isValidDirectionsArgs args with
  | some false => .protocolError .invalidParams "Invalid directions arguments"
  | none => .thrown
  | some true =>
    .httpCall ⟨"", [("origin", propD args "origin"),
                    ("destination", propD args "destination"),
                    ("mode", jsOr (propD args "mode") (.vstr "driving")),
                    ("key", .vstr apiKey)]⟩

/-- The directions tool call composed with the outcome of its single
GET: an axios failure is converted by the catch block into an
`isError: true` envelope; success is serialized into a plain envelope. -/
def directionsCallTool (apiKey name : String) (args : JSValue)
    (hres : Except AxiosErr JSValue) : ToolOutcome :=
  match directionsToolPre apiKey name args with
  | .protocolError c m => .protocolError c m
  | .thrown => .thrown
  | .httpCall _ =>
    match hres with
    | .ok body => .result (okEnvelope body)
    | .error e => .result (errEnvelope (directionsErrText e))

/-- Transit tool dispatcher up to the HTTP boundary
(navitime-transit-server/src/index.ts, CallToolRequestSchema handler):
unknown name and invalid arguments throw before the try block; valid
arguments reach one GET on `/route_transit` with the translated
`start_time` and the `||` defaults for term/limit/datum/coord_unit. -/
def transitToolPre (name : String) (args : JSValue) : DispatchOutcome :=
  if name ≠ "route_transit" then
    .protocolError .methodNotFound ("Unknown tool: " ++ name)
  else match isValidRouteTransitArgs args with
  | some false => .protocolError .invalidParams "Invalid route_transit arguments"
  | none => .thrown
  | some true =>
    .httpCall ⟨"/route_transit",
      [("start", propD args "start"),
       ("goal", propD args "goal"),
       ("start_time", .vstr (transitStartTime (propD args "start_time"))),
       ("term", jsOr (propD args "term") (.vstr "60")),
       ("limit", jsOr (propD args "limit") (.vstr "3")),
       ("datum", jsOr (propD args "datum") (.vstr "wgs84")),
       ("coord_unit", jsOr (propD args "coord_unit") (.vstr "degree"))]⟩

/-- Response-side time suffixing of the transit server
(navitime-transit-server/src/index.ts, `addTimezone`): textually the
same heuristic as `normalizeTime`, defined separately in the source. -/
def addTimezone (timeStr : String) : String :=
  if jsIncludes timeStr '+' then timeStr else timeStr ++ "+09:00"

/-- `Array.prototype.includes('+')`: true iff some element is strictly
equal to the one-character string `+` (SameValueZero against a string
primitive is strict equality). -/
def jsArrIncludesPlus : List JSValue → Bool
  | [] => false
  | x :: rest => jsIsStr x "+" || jsArrIncludesPlus rest

/-- `addTimezone` applied to an untyped field value. A string uses
`String.prototype.includes`. An array also has an `includes` method: if
some element is the string `+` the array is returned (and assigned
back) unchanged, otherwise `timeStr + '+09:00'` coerces the array
through `join(",")` and yields a string. Every other value — undefined
(a missing field), null, a boolean, a number, a plain object — has no
`includes` method, so the call throws a TypeError (`none`). -/
def addTimezoneV : JSValue → Option JSValue
  | .vstr s => some (.vstr (addTimezone s))
  | .varr l =>
    if jsArrIncludesPlus l then some (.varr l)
    else some (.vstr (jsArrayJoin l ++ "+09:00"))
  | _ => none

/-- `item.summary.move.from_time = addTimezone(item.summary.move.from_time);
item.summary.move.to_time = addTimezone(item.summary.move.to_time);` —
both fields are read unconditionally, so a missing field (or any other
value without an `includes` method) throws. -/
def fixMove (mv : JSValue) : Option JSValue :=
  match jsGetProp mv "from_time" with
  | none => none
  | some ftv =>
    match addTimezoneV ftv with
    | none => none
    | some ftr =>
      let mv1 := setProp mv "from_time" ftr
      match jsGetProp mv1 "to_time" with
      | none => none
      | some ttv =>
        match addTimezoneV ttv with
        | none => none
        | some ttr => some (setProp mv1 "to_time" ttr)

/-- One statement `if (section.k) section.k = addTimezone(section.k)`:
read the field, and when truthy apply `addTimezone` to it in place
(throwing when the truthy value has no `includes` method). -/
def suffixTimeStmt (sv : JSValue) (k : String) : Option JSValue :=
  match jsGetProp sv k with
  | none => none
  | some tv =>
    if jsTruthy tv then
      match addTimezoneV tv with
      | none => none
      | some tr => some (setProp sv k tr)
    else some sv

/-- Per-section transform: only sections whose `type` is the string
`move` are touched, and each of `from_time`/`to_time` is suffixed only
when truthy — the two `suffixTimeStmt` statements of the source run in
order. -/
def fixSection (sv : JSValue) : Option JSValue :=
  match jsGetProp sv "type" with
  | none => none
  | some tyv =>
    if jsIsStr tyv "move" then
      match suffixTimeStmt sv "from_time" with
      | none => none
      | some sv1 => suffixTimeStmt sv1 "to_time"
    else some sv

/-- `Array.prototype.map` with a callback that can throw: the first
exception aborts the whole map. -/
def mapOrThrow (f : JSValue → Option JSValue) : List JSValue → Option (List JSValue)
  | [] => some []
  | x :: xs =>
    match f x with
    | none => none
    | some y =>
      match mapOrThrow f xs with
      | none => none
      | some ys => some (y :: ys)

/-- The `summary.move` block of the per-item transform: it runs when
both `item.summary` and `item.summary.move` are truthy, and rebuilds the
item with the fixed move object (in the source this is in-place
mutation of the nested move). -/
def summaryPhase (it : JSValue) : Option JSValue :=
  match jsGetProp it "summary" with
  | none => none
  | some sv =>
    if jsTruthy sv then
      match jsGetProp sv "move" with
      | none => none
      | some mv =>
        if jsTruthy mv then
          match fixMove mv with
          | none => none
          | some mv2 => some (setProp it "summary" (setProp sv "move" mv2))
        else some it
    else some it

/-- The `sections` block of the per-item transform: it runs when
`item.sections` is an array (arrays are always truthy, so the
`item.sections &&` guard adds nothing on arrays). -/
def sectionsPhase (it1 : JSValue) : Option JSValue :=
  match jsGetProp it1 "sections" with
  | none => none
  | some secv =>
    match secv with
    | .varr l =>
      match mapOrThrow fixSection l with
      | none => none
      | some l2 => some (setProp it1 "sections" (.varr l2))
    | _ => some it1

/-- Per-item transform: the summary block, then the sections block, on
the item the first block produced. -/
def fixItem (it : JSValue) : Option JSValue :=
  match summaryPhase it with
  | none => none
  | some it1 => sectionsPhase it1

/-- The whole response transform of the transit server
(navitime-transit-server/src/index.ts, lines 153-175): when `data.items`
is an array, map `fixItem` over it and store the result back, otherwise
return the body unchanged; property access on a nullish body throws. -/
def addTimezoneBody (b : JSValue) : Option JSValue :=
  match jsGetProp b "items" with
  | none => none
  | some iv =>
    match iv with
    | .varr l =>
      match mapOrThrow fixItem l with
      | none => none
      | some l2 => some (setProp b "items" (.varr l2))
    | _ => some b

/-- The transit tool call composed with its GET outcome: an axios error
becomes an `isError` envelope; on success the response transform runs
inside the same try block, so a TypeError it throws is rethrown by the
catch (it is not an axios error) and propagates. -/
def transitCallTool (name : String) (args : JSValue)
    (hres : Except AxiosErr JSValue) : ToolOutcome :=
  match transitToolPre name args with
  | .protocolError c m => .protocolError c m
  | .thrown => .thrown
  | .httpCall _ =>
    match hres with
    | .error e => .result (errEnvelope (navitimeErrText e))
    | .ok body =>
      match addTimezoneBody body with
      | none => .thrown
      | some data => .result (okEnvelope data)

/-- The try-block body of the places server dispatcher
(places-server/src/index.ts, CallToolRequestSchema handler plus the
three `handle*` methods) up to the HTTP boundary. There is no argument
validation: the handlers read fields off the raw arguments, so a nullish
`args` (or a nullish `location` in nearby_search) throws a TypeError,
and any other shape reaches the GET. The unknown-tool default throws
`McpError(MethodNotFound)` inside the try block. Accesses after a
first successful one on the same base cannot throw and use `propD`. -/
def placesTry (name : String) (args : JSValue) : Except JsExc HttpRequest :=
  match name with
  | "search_places" =>
    match jsGetProp args "query" with
    | none => .error .typeError
    | some q =>
      .ok ⟨"/findplacefromtext/json",
        [("input", q),
         ("inputtype", .vstr "textquery"),
         ("language", jsOr (propD args "language") (.vstr "ja")),
         ("fields", .vstr "formatted_address,name,rating,opening_hours,geometry,place_id")]⟩
  | "get_place_details" =>
    match jsGetProp args "placeId" with
    | none => .error .typeError
    | some pid =>
      .ok ⟨"/details/json",
        [("place_id", pid),
         ("language", jsOr (propD args "language") (.vstr "ja")),
         ("fields", .vstr "name,rating,formatted_phone_number,formatted_address,opening_hours,website,reviews,price_level,photos")]⟩
  | "nearby_search" =>
    match jsGetProp args "location" with
    | none => .error .typeError
    | some loc =>
      match jsGetProp loc "lat" with
      | none => .error .typeError
      | some latv =>
        .ok ⟨"/nearbysearch/json",
          [("location", .vstr (jsTemplate latv ++ "," ++ jsTemplate (propD loc "lng"))),
           ("radius", jsOr (propD args "radius") (.vnum 1000)),
           ("type", propD args "type"),
           ("language", jsOr (propD args "language") (.vstr "ja"))]⟩
  | other => .error (.mcpError .methodNotFound ("Unknown tool: " ++ other))

/-- The places dispatcher as the protocol layer sees it before HTTP
traffic: the surrounding catch converts only axios errors into
envelopes, so the `McpError` from the default branch and any TypeError
are rethrown unchanged. -/
def placesPre (name : String) (args : JSValue) : DispatchOutcome :=
  match placesTry name args with
  | .ok req => .httpCall req
  | .error (.mcpError c m) => .protocolError c m
  | .error .typeError => .thrown

/-- The places tool call composed with its GET outcome: axios errors are
caught and converted into an `isError` envelope; everything else is as
in `placesPre`. -/
def placesCallTool (name : String) (args : JSValue)
    (hres : Except AxiosErr JSValue) : ToolOutcome :=
  match placesTry name args with
  | .error (.mcpError c m) => .protocolError c m
  | .error .typeError => .thrown
  | .ok _ =>
    match hres with
    | .ok body => .result (okEnvelope body)
    | .error e => .result (errEnvelope (placesErrText e))

/-- Line terminators, which `.` in a JS regular expression (without the
`s` flag) does not match: LF, CR, U+2028, U+2029. -/
def lineTerm (c : Char) : Bool :=
  c == '\n' || c == '\r' || c == Char.ofNat 8232 || c == Char.ofNat 8233

/-- Split of a character list at its rightmost `/` that is followed by at
least one character: the split the backtracking regex
`^directions:\/\/(.+)\/(.+)$` performs on the text after the scheme,
with the first (greedy) group maximized. -/
def splitLastSlash : List Char → Option (List Char × List Char)
  | [] => none
  | c :: rest =>
    match splitLastSlash rest with
    | some (a, b) => some (c :: a, b)
    | none => if c = '/' ∧ rest ≠ [] then some ([], rest) else none

/-- `uri.match(/^directions:\/\/(.+)\/(.+)$/)` from the directions
server ReadResourceRequestSchema handler: the fixed scheme prefix, then
the greedy two-group split; both groups must be nonempty and, since `.`
does not match line terminators and every character of the rest lands in
one of the two groups, a rest containing a line terminator never
matches. -/
def matchDirectionsUri (uri : String) : Option (String × String) :=
  let pre := "directions://".data
  let l := uri.data
  if l.take pre.length = pre then
    let rest := l.drop pre.length
    if rest.all (fun c => !lineTerm c) then
      match splitLastSlash rest with
      | some (a, b) => if a = [] then none else some (String.mk a, String.mk b)
      | none => none
    else none
  else none

/-- Value of a hexadecimal digit character (0-9, A-F, a-f by code
point: 48-57, 65-70, 97-102). -/
def hexDigit (c : Char) : Option Nat :=
  let n := c.toNat
  if 48 ≤ n ∧ n ≤ 57 then some (n - 48)
  else if 65 ≤ n ∧ n ≤ 70 then some (n - 55)
  else if 97 ≤ n ∧ n ≤ 102 then some (n - 87)
  else none

/-- `decodeURIComponent` over the code-point list: `%HH` escape groups
are decoded as UTF-8 byte sequences; a `%` not followed by two hex
digits, a bad continuation byte, an overlong encoding, a surrogate code
point or a lead byte outside the UTF-8 range throws URIError (`none`).
Other characters pass through unchanged. Characters above the BMP are
kept as single code points rather than UTF-16 pairs. -/
def decodeURIChars : List Char → Option (List Char)
  | [] => some []
  | c :: rest =>
    if c = '%' then
      match rest with
      | h1 :: h2 :: rest2 =>
        match hexDigit h1, hexDigit h2 with
        | some v1, some v2 =>
          let b1 := 16 * v1 + v2
          if b1 < 128 then
            match decodeURIChars rest2 with
            | none => none
            | some tail => some (Char.ofNat b1 :: tail)
          else if b1 < 194 then none
          else if b1 < 224 then
            match rest2 with
            | '%' :: h3 :: h4 :: rest3 =>
              match hexDigit h3, hexDigit h4 with
              | some v3, some v4 =>
                let b2 := 16 * v3 + v4
                if 128 ≤ b2 ∧ b2 < 192 then
                  match decodeURIChars rest3 with
                  | none => none
                  | some tail => some (Char.ofNat ((b1 - 192) * 64 + (b2 - 128)) :: tail)
                else none
              | _, _ => none
            | _ => none
          else if b1 < 240 then
            match rest2 with
            | '%' :: h3 :: h4 :: '%' :: h5 :: h6 :: rest3 =>
              match hexDigit h3, hexDigit h4, hexDigit h5, hexDigit h6 with
              | some v3, some v4, some v5, some v6 =>
                let b2 := 16 * v3 + v4
                let b3 := 16 * v5 + v6
                if (128 ≤ b2 ∧ b2 < 192) ∧ (128 ≤ b3 ∧ b3 < 192)
                    ∧ (b1 ≠ 224 ∨ 160 ≤ b2) ∧ (b1 ≠ 237 ∨ b2 < 160) then
                  match decodeURIChars rest3 with
                  | none => none
                  | some tail =>
                    some (Char.ofNat ((b1 - 224) * 4096 + (b2 - 128) * 64 + (b3 - 128)) :: tail)
                else none
              | _, _, _, _ => none
            | _ => none
          else if b1 < 245 then
            match rest2 with
            | '%' :: h3 :: h4 :: '%' :: h5 :: h6 :: '%' :: h7 :: h8 :: rest3 =>
              match hexDigit h3, hexDigit h4, hexDigit h5, hexDigit h6,
                    hexDigit h7, hexDigit h8 with
              | some v3, some v4, some v5, some v6, some v7, some v8 =>
                let b2 := 16 * v3 + v4
                let b3 := 16 * v5 + v6
                let b4 := 16 * v7 + v8
                if (128 ≤ b2 ∧ b2 < 192) ∧ (128 ≤ b3 ∧ b3 < 192) ∧ (128 ≤ b4 ∧ b4 < 192)
                    ∧ (b1 ≠ 240 ∨ 144 ≤ b2) ∧ (b1 ≠ 244 ∨ b2 < 144) then
                  match decodeURIChars rest3 with
                  | none => none
                  | some tail =>
                    some (Char.ofNat ((b1 - 240) * 262144 + (b2 - 128) * 4096
                      + (b3 - 128) * 64 + (b4 - 128)) :: tail)
                else none
              | _, _, _, _, _, _ => none
            | _ => none
          else none
        | _, _ => none
      | _ => none
    else
      match decodeURIChars rest with
      | none => none
      | some tail => some (c :: tail)

/-- `decodeURIComponent` on a string; `none` models the thrown URIError. -/
def decodeURIComponentM (s : String) : Option String :=
  (decodeURIChars s.data).map String.mk

/-- Outcome of the directions resource-read handler: a protocol error,
an uncaught URIError from decoding, the single GET at the HTTP boundary,
or a resource-read envelope (uri, mimeType, text). -/
inductive ResourceOutcome where
  | protocolError : ErrCode → String → ResourceOutcome
  | uriError : ResourceOutcome
  | httpCall : HttpRequest → ResourceOutcome
  | contents : String → String → JSValue → ResourceOutcome

/-- The resource-read handler up to the HTTP boundary
(googlemaps-directions-server/src/index.ts, ReadResourceRequestSchema
handler): a non-matching URI throws `McpError(InvalidRequest)`;
`decodeURIComponent` runs on the origin group, then the destination
group, before the try block, so a URIError propagates uncaught; a
decoded pair reaches one GET with origin, destination and the API key
(no mode parameter). -/
def readResourcePre (apiKey uri : String) : ResourceOutcome :=
  match matchDirectionsUri uri with
  | none => .protocolError .invalidRequest ("Invalid URI: " ++ uri)
  | some (rawO, rawD) =>
    match decodeURIComponentM rawO with
    | none => .uriError
    | some o =>
      match decodeURIComponentM rawD with
      | none => .uriError
      | some d =>
        .httpCall ⟨"", [("origin", .vstr o), ("destination", .vstr d), ("key", .vstr apiKey)]⟩

/-- The resource read composed with its GET outcome: here — unlike the
tool path — an axios failure is rethrown as a protocol-level
`McpError(InternalError, ...)`, not returned as an envelope. -/
def readResource (apiKey uri : String) (hres : Except AxiosErr JSValue) : ResourceOutcome :=
  match readResourcePre apiKey uri with
  | .httpCall _ =>
    match hres with
    | .ok body => .contents uri "application/json" (jsonStringifyV body)
    | .error e => .protocolError .internalError (directionsErrText e)
  | other => other

/-- Appending the suffix makes the plus sign present. -/
theorem jsIncludes_append_plus (s : String) : jsIncludes (s ++ "+09:00") '+' = true := by
  simp [jsIncludes, String.data_append]

/-- A string that includes a plus sign is nonempty. -/
theorem ne_empty_of_includes_plus {s : String} (h : jsIncludes s '+' = true) : s ≠ "" := by
  intro e
  subst e
  simp [jsIncludes] at h

/-- On a non-nullish base, property access cannot throw and yields the
defaulted lookup. -/
theorem jsGetProp_of_notNullish {v : JSValue} (k : String) (h : notNullish v = true) :
    jsGetProp v k = some (propD v k) := by
  cases v <;> simp_all [notNullish, jsGetProp, propD]

/-- On a nullish base, property access throws. -/
theorem jsGetProp_of_nullish {v : JSValue} (k : String) (h : notNullish v = false) :
    jsGetProp v k = none := by
  cases v <;> simp_all [notNullish, jsGetProp]

/-- Claim C5: applying the transit response timezone-suffixing function
twice equals applying it once, for every string: a value containing `+`
after the first application is never re-suffixed. -/
theorem c5_addTimezone_idempotent : ∀ s, addTimezone (addTimezone s) = addTimezone s := by
  intro s
  unfold addTimezone
  by_cases h : jsIncludes s '+' = true
  · simp [h]
  · simp [h, jsIncludes_append_plus]

/-- Claim C2 (counterexample): the claim states that every supplied
`start_time` string not containing `+` is translated to itself with
`+09:00` appended; the supplied empty string refutes it — the code tests
truthiness, `""` is falsy, and the fixed default timestamp is used
instead of `"+09:00"`. -/
theorem c2_counterexample :
    transitStartTime (.vstr "") = "2024-02-11T12:00:00+09:00" ∧
    jsIncludes "" '+' = false ∧
    "2024-02-11T12:00:00+09:00" ≠ "" ++ "+09:00" :=
  ⟨rfl, rfl, by decide⟩

/-- Claim C2 (amended): an omitted `start_time` translates to the fixed
literal; a supplied string containing `+` is passed through unchanged; a
supplied NON-EMPTY string without `+` gets `+09:00` appended; the
supplied empty string is falsy and also yields the fixed literal. The
last conjunct ties the translation to the dispatcher: the `start_time`
query parameter of a valid call is exactly `transitStartTime` of the
argument. -/
theorem c2_start_time_translation :
    transitStartTime .vundefined = "2024-02-11T12:00:00+09:00" ∧
    (∀ s, jsIncludes s '+' = true → transitStartTime (.vstr s) = s) ∧
    (∀ s, s ≠ "" → jsIncludes s '+' = false → transitStartTime (.vstr s) = s ++ "+09:00") ∧
    transitStartTime (.vstr "") = "2024-02-11T12:00:00+09:00" ∧
    (∀ s g t, transitToolPre "route_transit"
        (.vobj [("start", .vstr s), ("goal", .vstr g), ("start_time", .vstr t)]) =
      .httpCall ⟨"/route_transit",
        [("start", .vstr s), ("goal", .vstr g),
         ("start_time", .vstr (transitStartTime (.vstr t))),
         ("term", .vstr "60"), ("limit", .vstr "3"), ("datum", .vstr "wgs84"),
         ("coord_unit", .vstr "degree")]⟩) := by
  refine ⟨rfl, ?_, ?_, rfl, fun s g t => rfl⟩
  · intro s h
    have hs := ne_empty_of_includes_plus h
    simp [transitStartTime, jsTruthy, normalizeTime, h, hs]
  · intro s hs h
    simp [transitStartTime, jsTruthy, normalizeTime, h, hs]

/-- Witness for `c2_start_time_translation` at concrete inputs. -/
theorem c2_witness :
    transitStartTime (.vstr "2024-03-01T10:00:00+09:00") = "2024-03-01T10:00:00+09:00" ∧
    transitStartTime (.vstr "2024-03-01T10:00:00") = "2024-03-01T10:00:00" ++ "+09:00" :=
  ⟨c2_start_time_translation.2.1 "2024-03-01T10:00:00+09:00" (by decide),
   c2_start_time_translation.2.2.1 "2024-03-01T10:00:00" (by decide) (by decide)⟩

/-- True only for a protocol-error dispatch outcome. -/
def DispatchOutcome.isProtocolErrorB : DispatchOutcome → Bool
  | .protocolError _ _ => true
  | _ => false

/-- Claim C1 (counterexample): a `search_places` call whose arguments are
the empty object — missing the required `query` string — neither yields
an invalid-params protocol error nor stops before HTTP: the places
dispatcher performs no argument validation and issues the GET with
`input` undefined. -/
theorem c1_counterexample :
    placesPre "search_places" (.vobj []) =
      .httpCall ⟨"/findplacefromtext/json",
        [("input", .vundefined), ("inputtype", .vstr "textquery"), ("language", .vstr "ja"),
         ("fields", .vstr "formatted_address,name,rating,opening_hours,geometry,place_id")]⟩ ∧
    (placesPre "search_places" (.vobj [])).isProtocolErrorB = false :=
  ⟨rfl, rfl⟩

/-- Claim C1 (amended): the places dispatcher has no argument-shape
check. For any non-nullish arguments the three handlers go straight to
the HTTP call with the raw field values (missing fields become
undefined); nullish arguments — or a nullish `location` for
nearby_search — throw a TypeError that the catch rethrows; the only
protocol error the dispatcher ever produces is method-not-found, never
invalid-params. -/
theorem c1_places_no_validation :
    (∀ args, notNullish args = true →
      placesTry "search_places" args = .ok ⟨"/findplacefromtext/json",
        [("input", propD args "query"), ("inputtype", .vstr "textquery"),
         ("language", jsOr (propD args "language") (.vstr "ja")),
         ("fields", .vstr "formatted_address,name,rating,opening_hours,geometry,place_id")]⟩) ∧
    (∀ args, notNullish args = true →
      placesTry "get_place_details" args = .ok ⟨"/details/json",
        [("place_id", propD args "placeId"),
         ("language", jsOr (propD args "language") (.vstr "ja")),
         ("fields", .vstr "name,rating,formatted_phone_number,formatted_address,opening_hours,website,reviews,price_level,photos")]⟩) ∧
    (∀ args, notNullish args = true → notNullish (propD args "location") = true →
      placesTry "nearby_search" args = .ok ⟨"/nearbysearch/json",
        [("location", .vstr (jsTemplate (propD (propD args "location") "lat") ++ ","
            ++ jsTemplate (propD (propD args "location") "lng"))),
         ("radius", jsOr (propD args "radius") (.vnum 1000)),
         ("type", propD args "type"),
         ("language", jsOr (propD args "language") (.vstr "ja"))]⟩) ∧
    (∀ args, notNullish args = false → placesTry "search_places" args = .error .typeError) ∧
    (∀ args, notNullish args = true → notNullish (propD args "location") = false →
      placesTry "nearby_search" args = .error .typeError) ∧
    (∀ name args c m, placesPre name args = .protocolError c m → c = .methodNotFound) := by
  refine ⟨?_, ?_, ?_, ?_, ?_, ?_⟩
  · intro args h
    simp [placesTry, jsGetProp_of_notNullish _ h]
  · intro args h
    simp [placesTry, jsGetProp_of_notNullish _ h]
  · intro args h hl
    simp [placesTry, jsGetProp_of_notNullish _ h, jsGetProp_of_notNullish _ hl]
  · intro args h
    simp [placesTry, jsGetProp_of_nullish _ h]
  · intro args h hl
    simp [placesTry, jsGetProp_of_notNullish _ h, jsGetProp_of_nullish _ hl]
  · intro name args c m h
    by_cases h1 : name = "search_places"
    · subst h1
      simp only [placesTry, placesPre] at h
      cases hq : jsGetProp args "query" <;> simp [hq] at h
    · by_cases h2 : name = "get_place_details"
      · subst h2
        simp only [placesTry, placesPre] at h
        cases hq : jsGetProp args "placeId" <;> simp [hq] at h
      · by_cases h3 : name = "nearby_search"
        · subst h3
          simp only [placesTry, placesPre] at h
          cases hq : jsGetProp args "location" with
          | none => simp [hq] at h
          | some loc =>
            simp only [hq] at h
            cases hl : jsGetProp loc "lat" <;> simp [hl] at h
        · simp only [placesTry, placesPre, h1, h2, h3] at h
          simp_all

/-- Witness for `c1_places_no_validation`: a wrongly-typed `query` still
reaches the HTTP call, and a missing `location` throws. -/
theorem c1_witness :
    placesTry "search_places" (.vobj [("query", .vnum 5)]) = .ok ⟨"/findplacefromtext/json",
      [("input", .vnum 5), ("inputtype", .vstr "textquery"), ("language", .vstr "ja"),
       ("fields", .vstr "formatted_address,name,rating,opening_hours,geometry,place_id")]⟩ ∧
    placesTry "nearby_search" (.vobj []) = .error .typeError :=
  ⟨c1_places_no_validation.1 (.vobj [("query", .vnum 5)]) rfl,
   c1_places_no_validation.2.2.2.2.1 (.vobj []) rfl rfl⟩

/-- Claim C7: in each of the three servers, a tool-call whose name is not
in the catalog raises a protocol-level method-not-found error (for the
places server, the `McpError` thrown inside the try block is rethrown by
the catch, which converts only axios errors, so it still surfaces as a
protocol error and never as an envelope). -/
theorem c7_unknown_tool (name : String) (args : JSValue) :
    (name ≠ "get_directions" → ∀ apiKey, directionsToolPre apiKey name args =
      .protocolError .methodNotFound ("Unknown tool: " ++ name)) ∧
    (name ≠ "route_transit" → transitToolPre name args =
      .protocolError .methodNotFound ("Unknown tool: " ++ name)) ∧
    (name ≠ "search_places" → name ≠ "get_place_details" → name ≠ "nearby_search" →
      placesPre name args = .protocolError .methodNotFound ("Unknown tool: " ++ name)) := by
  refine ⟨?_, ?_, ?_⟩
  · intro h apiKey
    simp [directionsToolPre, h]
  · intro h
    simp [transitToolPre, h]
  · intro h1 h2 h3
    simp [placesPre, placesTry, h1, h2, h3]

/-- Witness for `c7_unknown_tool` at the tool name `bogus_tool`. -/
theorem c7_witness :
    directionsToolPre "K" "bogus_tool" (.vobj []) =
      .protocolError .methodNotFound "Unknown tool: bogus_tool" ∧
    transitToolPre "bogus_tool" (.vobj []) =
      .protocolError .methodNotFound "Unknown tool: bogus_tool" ∧
    placesPre "bogus_tool" (.vobj []) =
      .protocolError .methodNotFound "Unknown tool: bogus_tool" :=
  ⟨(c7_unknown_tool "bogus_tool" (.vobj [])).1 (by decide) "K",
   (c7_unknown_tool "bogus_tool" (.vobj [])).2.1 (by decide),
   (c7_unknown_tool "bogus_tool" (.vobj [])).2.2 (by decide) (by decide) (by decide)⟩

/-- Claim C4: whenever a tool call in any server reaches its GET and the
GET fails with an axios error (non-2xx or network failure), the handler
returns a tool-result envelope with `isError: true` and the provider
error text — no protocol error; whereas the directions resource-read
path converts the same failure into a protocol-level internal error and
never an envelope. -/
theorem c4_http_failure_asymmetry (req : HttpRequest) (e : AxiosErr) :
    (∀ apiKey name args, directionsToolPre apiKey name args = .httpCall req →
      directionsCallTool apiKey name args (.error e) =
        .result (errEnvelope (directionsErrText e))) ∧
    (∀ name args, transitToolPre name args = .httpCall req →
      transitCallTool name args (.error e) = .result (errEnvelope (navitimeErrText e))) ∧
    (∀ name args, placesTry name args = .ok req →
      placesCallTool name args (.error e) = .result (errEnvelope (placesErrText e))) ∧
    (∀ apiKey uri, readResourcePre apiKey uri = .httpCall req →
      readResource apiKey uri (.error e) =
        .protocolError .internalError (directionsErrText e)) := by
  refine ⟨?_, ?_, ?_, ?_⟩
  · intro apiKey name args h
    simp [directionsCallTool, h]
  · intro name args h
    simp [transitCallTool, h]
  · intro name args h
    simp [placesCallTool, h]
  · intro apiKey uri h
    simp [readResource, h]

/-- Witness for `c4_http_failure_asymmetry`: the spec scenario — a 403
with body `{error_message: 'key invalid'}` on a valid directions call
yields the envelope text `Google Maps API error: key invalid`, while the
same failure on the resource path is a protocol-level internal error. -/
theorem c4_witness :
    directionsCallTool "K" "get_directions"
        (.vobj [("origin", .vstr "Tokyo, Japan"), ("destination", .vstr "Osaka, Japan")])
        (.error ⟨some (.vobj [("error_message", .vstr "key invalid")]),
                 "Request failed with status code 403"⟩) =
      .result (errEnvelope "Google Maps API error: key invalid") ∧
    readResource "K" "directions://Tokyo/Osaka"
        (.error ⟨some (.vobj [("error_message", .vstr "key invalid")]),
                 "Request failed with status code 403"⟩) =
      .protocolError .internalError "Google Maps API error: key invalid" :=
  ⟨(c4_http_failure_asymmetry
      ⟨"", [("origin", .vstr "Tokyo, Japan"), ("destination", .vstr "Osaka, Japan"),
            ("mode", .vstr "driving"), ("key", .vstr "K")]⟩
      ⟨some (.vobj [("error_message", .vstr "key invalid")]),
       "Request failed with status code 403"⟩).1
      "K" "get_directions"
      (.vobj [("origin", .vstr "Tokyo, Japan"), ("destination", .vstr "Osaka, Japan")]) rfl,
   (c4_http_failure_asymmetry
      ⟨"", [("origin", .vstr "Tokyo"), ("destination", .vstr "Osaka"), ("key", .vstr "K")]⟩
      ⟨some (.vobj [("error_message", .vstr "key invalid")]),
       "Request failed with status code 403"⟩).2.2.2
      "K" "directions://Tokyo/Osaka" rfl⟩

/-- Claim C8: an optional field supplied as the empty string (or radius
supplied as 0) is falsy, so the `||`/ternary defaulting treats it
exactly like an absent field: transit `start_time` becomes the fixed
default timestamp and term/limit/datum/coord_unit become
60/3/wgs84/degree (identical to the fully-absent call), directions
`mode` becomes `driving`, places `language` becomes `ja` in all three
handlers, and nearby_search radius 0 becomes 1000. -/
theorem c8_empty_optional_defaults :
    (∀ s g, transitToolPre "route_transit"
        (.vobj [("start", .vstr s), ("goal", .vstr g), ("start_time", .vstr ""),
                ("term", .vstr ""), ("limit", .vstr ""), ("datum", .vstr ""),
                ("coord_unit", .vstr "")]) =
      transitToolPre "route_transit" (.vobj [("start", .vstr s), ("goal", .vstr g)]) ∧
      transitToolPre "route_transit" (.vobj [("start", .vstr s), ("goal", .vstr g)]) =
        .httpCall ⟨"/route_transit",
          [("start", .vstr s), ("goal", .vstr g),
           ("start_time", .vstr "2024-02-11T12:00:00+09:00"),
           ("term", .vstr "60"), ("limit", .vstr "3"), ("datum", .vstr "wgs84"),
           ("coord_unit", .vstr "degree")]⟩) ∧
    (∀ apiKey o d, directionsToolPre apiKey "get_directions"
        (.vobj [("origin", .vstr o), ("destination", .vstr d), ("mode", .vstr "")]) =
      .httpCall ⟨"", [("origin", .vstr o), ("destination", .vstr d),
                      ("mode", .vstr "driving"), ("key", .vstr apiKey)]⟩) ∧
    (∀ q, placesTry "search_places" (.vobj [("query", .vstr q), ("language", .vstr "")]) =
      .ok ⟨"/findplacefromtext/json",
        [("input", .vstr q), ("inputtype", .vstr "textquery"), ("language", .vstr "ja"),
         ("fields", .vstr "formatted_address,name,rating,opening_hours,geometry,place_id")]⟩) ∧
    (∀ p, placesTry "get_place_details" (.vobj [("placeId", .vstr p), ("language", .vstr "")]) =
      .ok ⟨"/details/json",
        [("place_id", .vstr p), ("language", .vstr "ja"),
         ("fields", .vstr "name,rating,formatted_phone_number,formatted_address,opening_hours,website,reviews,price_level,photos")]⟩) ∧
    (∀ la ln : Int, placesTry "nearby_search"
        (.vobj [("location", .vobj [("lat", .vnum la), ("lng", .vnum ln)]),
                ("radius", .vnum 0), ("language", .vstr "")]) =
      .ok ⟨"/nearbysearch/json",
        [("location", .vstr (toString la ++ "," ++ toString ln)),
         ("radius", .vnum 1000), ("type", .vundefined), ("language", .vstr "ja")]⟩) :=
  ⟨fun s g => ⟨rfl, rfl⟩, fun apiKey o d => rfl, fun q => rfl, fun p => rfl, fun la ln => rfl⟩

/-- Claim C10: the resource URI `directions://%E0%/Osaka` matches the
pattern, but URL-decoding the origin group `%E0%` throws a URIError
(`%E0` opens a three-byte UTF-8 sequence and the trailing `%` has no hex
digits), before the try block: the handler neither raises the
invalid-URI error nor the internal-error mapping, makes no HTTP call and
produces no envelope — the URIError propagates uncaught. -/
theorem c10_malformed_percent_uri :
    ∀ apiKey, readResourcePre apiKey "directions://%E0%/Osaka" = .uriError ∧
      readResource apiKey "directions://%E0%/Osaka" (.ok (.vobj [])) = .uriError :=
  fun apiKey => ⟨rfl, rfl⟩

/-- The directions validator, on an object, computes the conjunction of
its three field checks. -/
theorem dirValid_vobj (fs : List (String × JSValue)) :
    isValidDirectionsArgs (.vobj fs) =
      some ((typeofStr ((lookupField fs "origin").getD .vundefined) == "string")
        && (typeofStr ((lookupField fs "destination").getD .vundefined) == "string")
        && (isUndefinedV ((lookupField fs "mode").getD .vundefined)
            || typeofStr ((lookupField fs "mode").getD .vundefined) == "string")) := by
  by_cases h1 : (typeofStr ((lookupField fs "origin").getD .vundefined) == "string") = true <;>
    by_cases h2 : (typeofStr ((lookupField fs "destination").getD .vundefined) == "string") = true <;>
      simp [isValidDirectionsArgs, jsGetProp, bne, h1, h2,
        show typeofStr (JSValue.vobj fs) = "object" from rfl]

/-- The transit validator, on an object, computes the conjunction of its
seven field checks. -/
theorem transitValid_vobj (fs : List (String × JSValue)) :
    isValidRouteTransitArgs (.vobj fs) =
      some ((typeofStr ((lookupField fs "start").getD .vundefined) == "string")
        && (typeofStr ((lookupField fs "goal").getD .vundefined) == "string")
        && (isUndefinedV ((lookupField fs "start_time").getD .vundefined)
            || typeofStr ((lookupField fs "start_time").getD .vundefined) == "string")
        && (isUndefinedV ((lookupField fs "term").getD .vundefined)
            || typeofStr ((lookupField fs "term").getD .vundefined) == "string")
        && (isUndefinedV ((lookupField fs "limit").getD .vundefined)
            || typeofStr ((lookupField fs "limit").getD .vundefined) == "string")
        && (isUndefinedV ((lookupField fs "datum").getD .vundefined)
            || typeofStr ((lookupField fs "datum").getD .vundefined) == "string")
        && (isUndefinedV ((lookupField fs "coord_unit").getD .vundefined)
            || typeofStr ((lookupField fs "coord_unit").getD .vundefined) == "string")) := by
  by_cases h1 : (typeofStr ((lookupField fs "start").getD .vundefined) == "string") = true <;>
    by_cases h2 : (typeofStr ((lookupField fs "goal").getD .vundefined) == "string") = true <;>
      by_cases h3 : (isUndefinedV ((lookupField fs "start_time").getD .vundefined)
          || typeofStr ((lookupField fs "start_time").getD .vundefined) == "string") = true <;>
        by_cases h4 : (isUndefinedV ((lookupField fs "term").getD .vundefined)
            || typeofStr ((lookupField fs "term").getD .vundefined) == "string") = true <;>
          by_cases h5 : (isUndefinedV ((lookupField fs "limit").getD .vundefined)
              || typeofStr ((lookupField fs "limit").getD .vundefined) == "string") = true <;>
            by_cases h6 : (isUndefinedV ((lookupField fs "datum").getD .vundefined)
                || typeofStr ((lookupField fs "datum").getD .vundefined) == "string") = true <;>
              simp [isValidRouteTransitArgs, jsGetProp, bne, h1, h2, h3, h4, h5, h6,
                show typeofStr (JSValue.vobj fs) = "object" from rfl]

/-- Both validators return an answer on every input: the nullish guards
run before any property access, so no TypeError can occur. -/
theorem validators_never_throw (v : JSValue) :
    (isValidDirectionsArgs v).isSome = true ∧ (isValidRouteTransitArgs v).isSome = true := by
  cases v
  case vobj fs => simp [dirValid_vobj, transitValid_vobj]
  all_goals simp [isValidDirectionsArgs, isValidRouteTransitArgs, typeofStr, jsGetProp]

/-- Claim C6: the directions and transit validators return false — and
never throw — on null, on every non-object value, on an object missing a
required field, on an object whose required field has a non-string
value, and on an object whose optional field has a value that is neither
undefined nor a string (a field explicitly set to undefined counts as
absent, exactly as the `=== undefined` checks treat it). -/
theorem c6_validators :
    (∀ v, (isValidDirectionsArgs v).isSome = true ∧ (isValidRouteTransitArgs v).isSome = true) ∧
    (isValidDirectionsArgs .vnull = some false ∧ isValidRouteTransitArgs .vnull = some false) ∧
    (∀ v, typeofStr v ≠ "object" →
      isValidDirectionsArgs v = some false ∧ isValidRouteTransitArgs v = some false) ∧
    (∀ fs key, key = "origin" ∨ key = "destination" → lookupField fs key = none →
      isValidDirectionsArgs (.vobj fs) = some false) ∧
    (∀ fs key v, key = "origin" ∨ key = "destination" → lookupField fs key = some v →
      typeofStr v ≠ "string" → isValidDirectionsArgs (.vobj fs) = some false) ∧
    (∀ fs v, lookupField fs "mode" = some v → isUndefinedV v = false → typeofStr v ≠ "string" →
      isValidDirectionsArgs (.vobj fs) = some false) ∧
    (∀ fs key, key = "start" ∨ key = "goal" → lookupField fs key = none →
      isValidRouteTransitArgs (.vobj fs) = some false) ∧
    (∀ fs key v, key = "start" ∨ key = "goal" → lookupField fs key = some v →
      typeofStr v ≠ "string" → isValidRouteTransitArgs (.vobj fs) = some false) ∧
    (∀ fs key v, key = "start_time" ∨ key = "term" ∨ key = "limit" ∨ key = "datum"
        ∨ key = "coord_unit" → lookupField fs key = some v → isUndefinedV v = false →
      typeofStr v ≠ "string" → isValidRouteTransitArgs (.vobj fs) = some false) := by
  refine ⟨validators_never_throw, ⟨rfl, rfl⟩, ?_, ?_, ?_, ?_, ?_, ?_, ?_⟩
  · intro v h
    cases v <;> simp [typeofStr] at h ⊢ <;>
      simp [isValidDirectionsArgs, isValidRouteTransitArgs, typeofStr]
  · rintro fs key (rfl | rfl) h <;> simp [dirValid_vobj, h, typeofStr, isUndefinedV]
  · rintro fs key v (rfl | rfl) h hv <;> simp [dirValid_vobj, h, beq_eq_false_iff_ne.mpr hv]
  · intro fs v h hu hv
    simp [dirValid_vobj, h, hu, beq_eq_false_iff_ne.mpr hv]
  · rintro fs key (rfl | rfl) h <;> simp [transitValid_vobj, h, typeofStr, isUndefinedV]
  · rintro fs key v (rfl | rfl) h hv <;> simp [transitValid_vobj, h, beq_eq_false_iff_ne.mpr hv]
  · rintro fs key v (rfl | rfl | rfl | rfl | rfl) h hu hv <;>
      simp [transitValid_vobj, h, hu, beq_eq_false_iff_ne.mpr hv]

/-- Witness for `c6_validators` at concrete bad inputs. -/
theorem c6_witness :
    isValidDirectionsArgs (.vstr "not an object") = some false ∧
    isValidDirectionsArgs (.vobj [("origin", .vstr "A")]) = some false ∧
    isValidDirectionsArgs (.vobj [("origin", .vstr "A"), ("destination", .vnum 3)]) = some false ∧
    isValidDirectionsArgs
      (.vobj [("origin", .vstr "A"), ("destination", .vstr "B"), ("mode", .vnum 1)]) = some false ∧
    isValidRouteTransitArgs (.vobj [("start", .vstr "S"), ("goal", .vstr "G"),
      ("limit", .vbool true)]) = some false :=
  ⟨(c6_validators.2.2.1 (.vstr "not an object") (by decide)).1,
   c6_validators.2.2.2.1 [("origin", .vstr "A")] "destination" (Or.inr rfl) rfl,
   c6_validators.2.2.2.2.1 [("origin", .vstr "A"), ("destination", .vnum 3)] "destination"
     (.vnum 3) (Or.inr rfl) rfl (by decide),
   c6_validators.2.2.2.2.2.1 [("origin", .vstr "A"), ("destination", .vstr "B"), ("mode", .vnum 1)]
     (.vnum 1) rfl rfl (by decide),
   c6_validators.2.2.2.2.2.2.2.2 [("start", .vstr "S"), ("goal", .vstr "G"), ("limit", .vbool true)]
     "limit" (.vbool true) (Or.inr (Or.inr (Or.inl rfl))) rfl rfl (by decide)⟩

/-- Looking up the assigned key finds the assigned value. -/
theorem lookupField_setField_self (fs : List (String × JSValue)) (k : String) (x : JSValue) :
    lookupField (setField fs k x) k = some x := by
  induction fs with
  | nil => simp [setField, lookupField]
  | cons p rest ih =>
    obtain ⟨k0, v0⟩ := p
    by_cases h : k0 = k <;> simp [setField, lookupField, h, ih]

/-- Assignment leaves every other key's lookup unchanged. -/
theorem lookupField_setField_ne (fs : List (String × JSValue)) (k k' : String) (x : JSValue)
    (h : k' ≠ k) : lookupField (setField fs k x) k' = lookupField fs k' := by
  induction fs with
  | nil => simp [setField, lookupField, Ne.symm h]
  | cons p rest ih =>
    obtain ⟨k0, v0⟩ := p
    by_cases h0 : k0 = k
    · subst h0
      simp [setField, lookupField, Ne.symm h]
    · by_cases h1 : k0 = k' <;> simp [setField, lookupField, h0, h1, h, ih]

/-- `objGet` version of `lookupField_setField_ne`, total over all values
(assignment on a non-object is the identity here). -/
theorem objGet_setProp_ne (v : JSValue) (k k' : String) (x : JSValue) (h : k' ≠ k) :
    objGet (setProp v k x) k' = objGet v k' := by
  cases v <;> simp [setProp, objGet, lookupField_setField_ne _ _ _ _ h]

/-- `objGet` version of `lookupField_setField_self` on objects. -/
theorem objGet_setProp_self (fs : List (String × JSValue)) (k : String) (x : JSValue) :
    objGet (setProp (.vobj fs) k x) k = some x := by
  simp [setProp, objGet, lookupField_setField_self]

/-- Assignment preserves being an object. -/
theorem setProp_vobj (fs : List (String × JSValue)) (k : String) (x : JSValue) :
    setProp (.vobj fs) k x = .vobj (setField fs k x) := rfl

/-- Success of `fixMove` forces the move value to be an object whose
`from_time` and `to_time` are present values on which `addTimezone`
does not throw, and gives the result shape. -/
theorem fixMove_spec {mv mv2 : JSValue} (h : fixMove mv = some mv2) :
    ∃ fs ft tt ft2 tt2, mv = .vobj fs ∧
      lookupField fs "from_time" = some ft ∧ addTimezoneV ft = some ft2 ∧
      lookupField fs "to_time" = some tt ∧ addTimezoneV tt = some tt2 ∧
      mv2 = setProp (setProp mv "from_time" ft2) "to_time" tt2 := by
  cases mv with
  | vobj fs =>
    cases hf : lookupField fs "from_time" with
    | none => exfalso; simp [fixMove, jsGetProp, hf, addTimezoneV] at h
    | some fv =>
      cases haf : addTimezoneV fv with
      | none =>
        exfalso
        simp [fixMove, jsGetProp, hf, haf] at h
      | some ft2 =>
        have hto : lookupField (setField fs "from_time" ft2) "to_time"
            = lookupField fs "to_time" := lookupField_setField_ne _ _ _ _ (by decide)
        simp only [fixMove, jsGetProp, hf, Option.getD_some, haf, setProp] at h
        rw [hto] at h
        cases ht : lookupField fs "to_time" with
        | none =>
          rw [ht] at h
          simp [addTimezoneV] at h
        | some tv =>
          rw [ht] at h
          simp only [Option.getD_some] at h
          cases hat : addTimezoneV tv with
          | none =>
            rw [hat] at h
            exact absurd h (by simp)
          | some tt2 =>
            rw [hat] at h
            refine ⟨fs, fv, tv, ft2, tt2, rfl, hf, haf, ht, hat, ?_⟩
            exact (Option.some.inj h).symm
  | vundefined => exfalso; simp [fixMove, jsGetProp] at h
  | vnull => exfalso; simp [fixMove, jsGetProp] at h
  | vbool b => exfalso; simp [fixMove, jsGetProp, addTimezoneV] at h
  | vnum n => exfalso; simp [fixMove, jsGetProp, addTimezoneV] at h
  | vstr s => exfalso; simp [fixMove, jsGetProp, addTimezoneV] at h
  | varr l => exfalso; simp [fixMove, jsGetProp, addTimezoneV] at h

/-- Frame relation of the `summary.move` update: only `from_time` and
`to_time` change, both were present, and each new value is the
`addTimezone` image of the old one — for a string, itself when it
contains `+` and itself plus `+09:00` otherwise; for an array, itself
when some element is the string `+` and its comma-join plus `+09:00`
otherwise; success excludes every other shape, which would throw. -/
def MoveFrame (mv mv2 : JSValue) : Prop :=
  (∀ k, k ≠ "from_time" → k ≠ "to_time" → objGet mv2 k = objGet mv k) ∧
  (∃ ft tt ft2 tt2,
    objGet mv "from_time" = some ft ∧ addTimezoneV ft = some ft2 ∧
    objGet mv "to_time" = some tt ∧ addTimezoneV tt = some tt2 ∧
    objGet mv2 "from_time" = some ft2 ∧ objGet mv2 "to_time" = some tt2)

/-- A successful `fixMove` satisfies the move frame relation. -/
theorem fixMove_frame {mv mv2 : JSValue} (h : fixMove mv = some mv2) : MoveFrame mv mv2 := by
  obtain ⟨fs, ft, tt, ft2, tt2, rfl, hf, haf, ht, hat, rfl⟩ := fixMove_spec h
  constructor
  · intro k hk1 hk2
    rw [objGet_setProp_ne _ _ _ _ hk2, objGet_setProp_ne _ _ _ _ hk1]
  · refine ⟨ft, tt, ft2, tt2, by simp [objGet, hf], haf, by simp [objGet, ht], hat, ?_, ?_⟩
    · rw [objGet_setProp_ne _ _ _ _ (by decide)]
      exact objGet_setProp_self _ _ _
    · exact objGet_setProp_self (setField fs "from_time" ft2) _ _

/-- How one time field relates across the section transform: an absent
field stays absent, a falsy value is left alone, and a truthy value is
replaced by its `addTimezone` image — for a string, itself when it
contains `+` and itself plus `+09:00` otherwise; for an array, itself
when some element is the string `+` and its comma-join plus `+09:00`
otherwise; any other truthy value would have thrown, so a successful
run never reaches it. -/
def sectionTimeUpd (old new : Option JSValue) : Prop :=
  (old = none → new = none) ∧
  (∀ v, old = some v → jsTruthy v = false → new = some v) ∧
  (∀ v, old = some v → jsTruthy v = true → ∃ w, addTimezoneV v = some w ∧ new = some w)

/-- A suffixing statement leaves every other field's lookup unchanged. -/
theorem suffixTimeStmt_objGet_ne {sv sv2 : JSValue} {k : String}
    (h : suffixTimeStmt sv k = some sv2) (k' : String) (hk : k' ≠ k) :
    objGet sv2 k' = objGet sv k' := by
  cases sv with
  | vundefined => simp [suffixTimeStmt, jsGetProp] at h
  | vnull => simp [suffixTimeStmt, jsGetProp] at h
  | vobj fs =>
    cases hl : lookupField fs k with
    | none =>
      simp [suffixTimeStmt, jsGetProp, hl, jsTruthy] at h
      subst h
      rfl
    | some v =>
      by_cases htr : jsTruthy v = true
      · cases hav : addTimezoneV v with
        | none => simp [suffixTimeStmt, jsGetProp, hl, htr, hav] at h
        | some w =>
          simp [suffixTimeStmt, jsGetProp, hl, htr, hav] at h
          subst h
          exact objGet_setProp_ne _ _ _ _ hk
      · simp [suffixTimeStmt, jsGetProp, hl, htr] at h
        subst h
        rfl
  | vbool b =>
    simp [suffixTimeStmt, jsGetProp, jsTruthy] at h
    subst h
    rfl
  | vnum n =>
    simp [suffixTimeStmt, jsGetProp, jsTruthy] at h
    subst h
    rfl
  | vstr s =>
    simp [suffixTimeStmt, jsGetProp, jsTruthy] at h
    subst h
    rfl
  | varr l =>
    simp [suffixTimeStmt, jsGetProp, jsTruthy] at h
    subst h
    rfl

/-- A successful suffixing statement updates its own field according to
`sectionTimeUpd`. -/
theorem suffixTimeStmt_timeUpd {sv sv2 : JSValue} {k : String}
    (h : suffixTimeStmt sv k = some sv2) :
    sectionTimeUpd (objGet sv k) (objGet sv2 k) := by
  cases sv with
  | vundefined => simp [suffixTimeStmt, jsGetProp] at h
  | vnull => simp [suffixTimeStmt, jsGetProp] at h
  | vobj fs =>
    cases hl : lookupField fs k with
    | none =>
      simp [suffixTimeStmt, jsGetProp, hl, jsTruthy] at h
      subst h
      exact ⟨fun _ => by simp [objGet, hl], by simp [objGet, hl], by simp [objGet, hl]⟩
    | some v =>
      by_cases htr : jsTruthy v = true
      · cases hav : addTimezoneV v with
        | none => simp [suffixTimeStmt, jsGetProp, hl, htr, hav] at h
        | some w =>
          simp [suffixTimeStmt, jsGetProp, hl, htr, hav] at h
          subst h
          refine ⟨by simp [objGet, hl], ?_, ?_⟩
          · intro v' hv' hfalse
            rw [objGet] at hv'
            rw [hl] at hv'
            obtain rfl := Option.some.inj hv'
            rw [htr] at hfalse
            exact absurd hfalse (by simp)
          · intro v' hv' _
            rw [objGet] at hv'
            rw [hl] at hv'
            obtain h' := Option.some.inj hv'
            cases h'
            exact ⟨w, hav, objGet_setProp_self _ _ _⟩
      · simp [suffixTimeStmt, jsGetProp, hl, htr] at h
        subst h
        refine ⟨by simp [objGet, hl], fun v' hv' _ => hv', ?_⟩
        intro v' hv' htrue
        rw [objGet] at hv'
        rw [hl] at hv'
        obtain h' := Option.some.inj hv'
        subst h'
        exact absurd htrue (by simp [htr])
  | vbool b =>
    simp [suffixTimeStmt, jsGetProp, jsTruthy] at h
    subst h
    exact ⟨fun _ => rfl, fun v hv => by simp [objGet] at hv, fun s hs => by simp [objGet] at hs⟩
  | vnum n =>
    simp [suffixTimeStmt, jsGetProp, jsTruthy] at h
    subst h
    exact ⟨fun _ => rfl, fun v hv => by simp [objGet] at hv, fun s hs => by simp [objGet] at hs⟩
  | vstr s =>
    simp [suffixTimeStmt, jsGetProp, jsTruthy] at h
    subst h
    exact ⟨fun _ => rfl, fun v hv => by simp [objGet] at hv, fun s hs => by simp [objGet] at hs⟩
  | varr l =>
    simp [suffixTimeStmt, jsGetProp, jsTruthy] at h
    subst h
    exact ⟨fun _ => rfl, fun v hv => by simp [objGet] at hv, fun s hs => by simp [objGet] at hs⟩

/-- Frame relation of the per-section transform: a section whose `type`
is not the string `move` is returned unchanged; a move section keeps
every field other than `from_time`/`to_time`, and those two evolve by
`sectionTimeUpd`. -/
def SectionFrame (sv sv2 : JSValue) : Prop :=
  (jsIsStr (propD sv "type") "move" = false → sv2 = sv) ∧
  (jsIsStr (propD sv "type") "move" = true →
    (∀ k, k ≠ "from_time" → k ≠ "to_time" → objGet sv2 k = objGet sv k) ∧
    sectionTimeUpd (objGet sv "from_time") (objGet sv2 "from_time") ∧
    sectionTimeUpd (objGet sv "to_time") (objGet sv2 "to_time"))

/-- A successful `fixSection` satisfies the section frame relation. -/
theorem fixSection_frame {sv sv2 : JSValue} (h : fixSection sv = some sv2) :
    SectionFrame sv sv2 := by
  cases hty0 : jsGetProp sv "type" with
  | none =>
    simp only [fixSection, hty0] at h
    exact absurd h (by simp)
  | some tyv =>
    have hpd : propD sv "type" = tyv := by simp [propD, hty0]
    simp only [fixSection, hty0] at h
    by_cases hty : jsIsStr tyv "move" = true
    · rw [if_pos hty] at h
      cases hs1 : suffixTimeStmt sv "from_time" with
      | none =>
        simp only [hs1] at h
        exact absurd h (by simp)
      | some sv1 =>
        simp only [hs1] at h
        refine ⟨fun hfalse => absurd hty (by rw [hpd] at hfalse; simp [hfalse]),
          fun _ => ⟨?_, ?_, ?_⟩⟩
        · intro k hk1 hk2
          rw [suffixTimeStmt_objGet_ne h k hk2, suffixTimeStmt_objGet_ne hs1 k hk1]
        · have heq : objGet sv2 "from_time" = objGet sv1 "from_time" :=
            suffixTimeStmt_objGet_ne h "from_time" (by decide)
          rw [heq]
          exact suffixTimeStmt_timeUpd hs1
        · have heq : objGet sv1 "to_time" = objGet sv "to_time" :=
            suffixTimeStmt_objGet_ne hs1 "to_time" (by decide)
          rw [← heq]
          exact suffixTimeStmt_timeUpd h
    · rw [if_neg hty] at h
      obtain rfl := Option.some.inj h
      exact ⟨fun _ => rfl, fun htrue => absurd htrue (by simp [← hpd] at hty; simp [hty])⟩

/-- A strict field lookup determines the defaulted property access. -/
theorem propD_eq_of_objGet {sv v : JSValue} {k : String} (h : objGet sv k = some v) :
    propD sv k = v := by
  cases sv <;> simp [objGet] at h <;> simp [propD, jsGetProp, h]

/-- A truthy value is not nullish. -/
theorem notNullish_of_truthy {v : JSValue} (h : jsTruthy v = true) : notNullish v = true := by
  cases v <;> simp_all [jsTruthy, notNullish]

/-- A throwing map returns a list of the same length whose entries are
pointwise images, for any relation the mapped function guarantees. -/
theorem mapOrThrow_length_rel {f : JSValue → Option JSValue} {R : JSValue → JSValue → Prop}
    (hf : ∀ a b, f a = some b → R a b) :
    ∀ l l2, mapOrThrow f l = some l2 →
      l2.length = l.length ∧
        ∀ i (h1 : i < l.length) (h2 : i < l2.length), R (l.get ⟨i, h1⟩) (l2.get ⟨i, h2⟩) := by
  intro l
  induction l with
  | nil =>
    intro l2 h
    simp [mapOrThrow] at h
    subst h
    exact ⟨rfl, fun i h1 _ => absurd h1 (by simp)⟩
  | cons x xs ih =>
    intro l2 h
    simp only [mapOrThrow] at h
    cases hfx : f x with
    | none => rw [hfx] at h; exact absurd h (by simp)
    | some y =>
      rw [hfx] at h
      cases hm : mapOrThrow f xs with
      | none => rw [hm] at h; exact absurd h (by simp)
      | some ys =>
        rw [hm] at h
        obtain rfl := (Option.some.inj h).symm
        obtain ⟨hlen, hrel⟩ := ih ys hm
        refine ⟨by simp [hlen], ?_⟩
        intro i h1 h2
        cases i with
        | zero => simpa using hf x y hfx
        | succ j => simpa using hrel j (by simpa using h1) (by simpa using h2)

/-- Characterization of a successful summary phase. -/
theorem summaryPhase_spec {it it1 : JSValue} (h : summaryPhase it = some it1) :
    (∀ k, k ≠ "summary" → objGet it1 k = objGet it k) ∧
    (jsTruthy (propD it "summary") = false → it1 = it) ∧
    (∀ sv, objGet it "summary" = some sv → jsTruthy sv = true →
      jsTruthy (propD sv "move") = false → it1 = it) ∧
    (∀ sv mv, objGet it "summary" = some sv → jsTruthy sv = true →
      objGet sv "move" = some mv → jsTruthy mv = true →
      ∃ mv2, MoveFrame mv mv2 ∧ objGet it1 "summary" = some (setProp sv "move" mv2)) := by
  cases it with
  | vundefined => simp [summaryPhase, jsGetProp] at h
  | vnull => simp [summaryPhase, jsGetProp] at h
  | vbool b =>
    simp [summaryPhase, jsGetProp, jsTruthy] at h
    subst h
    exact ⟨fun _ _ => rfl, fun _ => rfl,
      fun sv hsv => by simp [objGet] at hsv, fun sv mv hsv => by simp [objGet] at hsv⟩
  | vnum n =>
    simp [summaryPhase, jsGetProp, jsTruthy] at h
    subst h
    exact ⟨fun _ _ => rfl, fun _ => rfl,
      fun sv hsv => by simp [objGet] at hsv, fun sv mv hsv => by simp [objGet] at hsv⟩
  | vstr s =>
    simp [summaryPhase, jsGetProp, jsTruthy] at h
    subst h
    exact ⟨fun _ _ => rfl, fun _ => rfl,
      fun sv hsv => by simp [objGet] at hsv, fun sv mv hsv => by simp [objGet] at hsv⟩
  | varr l =>
    simp [summaryPhase, jsGetProp, jsTruthy] at h
    subst h
    exact ⟨fun _ _ => rfl, fun _ => rfl,
      fun sv hsv => by simp [objGet] at hsv, fun sv mv hsv => by simp [objGet] at hsv⟩
  | vobj fs =>
    have hpd : propD (JSValue.vobj fs) "summary" = (lookupField fs "summary").getD .vundefined := by
      simp [propD, jsGetProp]
    cases hsl : lookupField fs "summary" with
    | none =>
      simp [summaryPhase, jsGetProp, hsl, jsTruthy] at h
      subst h
      refine ⟨fun _ _ => rfl, fun _ => rfl, ?_, ?_⟩
      · intro sv hsv
        simp only [objGet] at hsv
        rw [hsl] at hsv
        exact absurd hsv (by simp)
      · intro sv mv hsv
        simp only [objGet] at hsv
        rw [hsl] at hsv
        exact absurd hsv (by simp)
    | some sv0 =>
      have hpd0 : propD (JSValue.vobj fs) "summary" = sv0 := by simp [hpd, hsl]
      have hgps : jsGetProp (JSValue.vobj fs) "summary" = some sv0 := by simp [jsGetProp, hsl]
      simp only [summaryPhase, hgps] at h
      by_cases hsv : jsTruthy sv0 = true
      · have hnn : notNullish sv0 = true := notNullish_of_truthy hsv
        have hgpm : jsGetProp sv0 "move" = some (propD sv0 "move") :=
          jsGetProp_of_notNullish _ hnn
        rw [if_pos hsv] at h
        simp only [hgpm] at h
        by_cases hmv : jsTruthy (propD sv0 "move") = true
        · rw [if_pos hmv] at h
          cases hfix : fixMove (propD sv0 "move") with
          | none =>
            rw [hfix] at h
            exact absurd h (by simp)
          | some mv2 =>
            rw [hfix] at h
            obtain rfl := (Option.some.inj h).symm
            refine ⟨fun k hk => objGet_setProp_ne _ _ _ _ hk, ?_, ?_, ?_⟩
            · intro hf
              rw [hpd0] at hf
              exact absurd hsv (by simp [hf])
            · intro sv1 hsv1 htr hmv1
              simp only [objGet] at hsv1
              rw [hsl] at hsv1
              cases Option.some.inj hsv1
              exact absurd hmv (by simp [hmv1])
            · intro sv1 mv1 hsv1 htr hmv0 hmvtr
              simp only [objGet] at hsv1
              rw [hsl] at hsv1
              cases Option.some.inj hsv1
              have hmveq : propD sv0 "move" = mv1 := propD_eq_of_objGet hmv0
              rw [hmveq] at hfix
              exact ⟨mv2, fixMove_frame hfix, objGet_setProp_self _ _ _⟩
        · rw [if_neg hmv] at h
          obtain rfl := (Option.some.inj h).symm
          refine ⟨fun _ _ => rfl, fun _ => rfl, fun _ _ _ _ => rfl, ?_⟩
          intro sv1 mv1 hsv1 htr hmv0 hmvtr
          simp only [objGet] at hsv1
          rw [hsl] at hsv1
          cases Option.some.inj hsv1
          have hmveq : propD sv0 "move" = mv1 := propD_eq_of_objGet hmv0
          rw [hmveq] at hmv
          exact absurd hmvtr hmv
      · rw [if_neg hsv] at h
        obtain rfl := (Option.some.inj h).symm
        refine ⟨fun _ _ => rfl, fun _ => rfl, fun _ _ _ _ => rfl, ?_⟩
        intro sv1 mv1 hsv1 htr hmv0 hmvtr
        simp only [objGet] at hsv1
        rw [hsl] at hsv1
        cases Option.some.inj hsv1
        exact absurd htr hsv

/-- Characterization of a successful sections phase. -/
theorem sectionsPhase_spec {it1 it2 : JSValue} (h : sectionsPhase it1 = some it2) :
    (∀ k, k ≠ "sections" → objGet it2 k = objGet it1 k) ∧
    ((∀ l, objGet it1 "sections" ≠ some (.varr l)) → it2 = it1) ∧
    (∀ l, objGet it1 "sections" = some (.varr l) →
      ∃ l2, objGet it2 "sections" = some (.varr l2) ∧ l2.length = l.length ∧
        ∀ i (h1 : i < l.length) (h2 : i < l2.length),
          SectionFrame (l.get ⟨i, h1⟩) (l2.get ⟨i, h2⟩)) := by
  cases it1 with
  | vundefined => simp [sectionsPhase, jsGetProp] at h
  | vnull => simp [sectionsPhase, jsGetProp] at h
  | vbool b =>
    simp [sectionsPhase, jsGetProp] at h
    subst h
    exact ⟨fun _ _ => rfl, fun _ => rfl, fun l hl => by simp [objGet] at hl⟩
  | vnum n =>
    simp [sectionsPhase, jsGetProp] at h
    subst h
    exact ⟨fun _ _ => rfl, fun _ => rfl, fun l hl => by simp [objGet] at hl⟩
  | vstr s =>
    simp [sectionsPhase, jsGetProp] at h
    subst h
    exact ⟨fun _ _ => rfl, fun _ => rfl, fun l hl => by simp [objGet] at hl⟩
  | varr l0 =>
    simp [sectionsPhase, jsGetProp] at h
    subst h
    exact ⟨fun _ _ => rfl, fun _ => rfl, fun l hl => by simp [objGet] at hl⟩
  | vobj fs =>
    cases hsl : lookupField fs "sections" with
    | none =>
      simp [sectionsPhase, jsGetProp, hsl] at h
      subst h
      refine ⟨fun _ _ => rfl, fun _ => rfl, ?_⟩
      intro l hl
      simp only [objGet] at hl
      rw [hsl] at hl
      exact absurd hl (by simp)
    | some secv =>
      cases secv with
      | varr l0 =>
        cases hm : mapOrThrow fixSection l0 with
        | none =>
          exfalso
          simp [sectionsPhase, jsGetProp, hsl, hm] at h
        | some l2 =>
          have h1 : it2 = setProp (.vobj fs) "sections" (.varr l2) := by
            simp [sectionsPhase, jsGetProp, hsl, hm] at h
            exact h.symm
          subst h1
          refine ⟨fun k hk => objGet_setProp_ne _ _ _ _ hk, ?_, ?_⟩
          · intro hno
            exact absurd (show objGet (JSValue.vobj fs) "sections" = some (.varr l0) by
              simp [objGet, hsl]) (hno l0)
          · intro l hl
            simp only [objGet] at hl
            rw [hsl] at hl
            obtain hinj := Option.some.inj hl
            obtain rfl : l0 = l := by injection hinj
            obtain ⟨hlen, hrel⟩ :=
              @mapOrThrow_length_rel fixSection SectionFrame
                (fun a b hab => fixSection_frame hab) l0 l2 hm
            exact ⟨l2, objGet_setProp_self _ _ _, hlen, hrel⟩
      | vundefined =>
        simp [sectionsPhase, jsGetProp, hsl] at h
        subst h
        refine ⟨fun _ _ => rfl, fun _ => rfl, ?_⟩
        intro l hl
        simp only [objGet] at hl
        rw [hsl] at hl
        exact absurd (Option.some.inj hl) (by simp)
      | vnull =>
        simp [sectionsPhase, jsGetProp, hsl] at h
        subst h
        refine ⟨fun _ _ => rfl, fun _ => rfl, ?_⟩
        intro l hl
        simp only [objGet] at hl
        rw [hsl] at hl
        exact absurd (Option.some.inj hl) (by simp)
      | vbool b =>
        simp [sectionsPhase, jsGetProp, hsl] at h
        subst h
        refine ⟨fun _ _ => rfl, fun _ => rfl, ?_⟩
        intro l hl
        simp only [objGet] at hl
        rw [hsl] at hl
        exact absurd (Option.some.inj hl) (by simp)
      | vnum n =>
        simp [sectionsPhase, jsGetProp, hsl] at h
        subst h
        refine ⟨fun _ _ => rfl, fun _ => rfl, ?_⟩
        intro l hl
        simp only [objGet] at hl
        rw [hsl] at hl
        exact absurd (Option.some.inj hl) (by simp)
      | vstr s =>
        simp [sectionsPhase, jsGetProp, hsl] at h
        subst h
        refine ⟨fun _ _ => rfl, fun _ => rfl, ?_⟩
        intro l hl
        simp only [objGet] at hl
        rw [hsl] at hl
        exact absurd (Option.some.inj hl) (by simp)
      | vobj gs =>
        simp [sectionsPhase, jsGetProp, hsl] at h
        subst h
        refine ⟨fun _ _ => rfl, fun _ => rfl, ?_⟩
        intro l hl
        simp only [objGet] at hl
        rw [hsl] at hl
        exact absurd (Option.some.inj hl) (by simp)

/-- Frame relation of the per-item transform: every field except
`summary` and `sections` is unchanged; `summary` is unchanged unless
both it and its `move` are truthy, in which case only the move object
changes, by `MoveFrame`; `sections` is unchanged unless it is an array,
in which case it maps to an equal-length array of `SectionFrame`-related
sections. -/
def ItemFrame (it it2 : JSValue) : Prop :=
  (∀ k, k ≠ "summary" → k ≠ "sections" → objGet it2 k = objGet it k) ∧
  (jsTruthy (propD it "summary") = false → objGet it2 "summary" = objGet it "summary") ∧
  (∀ sv, objGet it "summary" = some sv → jsTruthy sv = true →
    jsTruthy (propD sv "move") = false → objGet it2 "summary" = some sv) ∧
  (∀ sv mv, objGet it "summary" = some sv → jsTruthy sv = true →
    objGet sv "move" = some mv → jsTruthy mv = true →
    ∃ mv2, MoveFrame mv mv2 ∧ objGet it2 "summary" = some (setProp sv "move" mv2)) ∧
  ((∀ l, objGet it "sections" ≠ some (.varr l)) →
    objGet it2 "sections" = objGet it "sections") ∧
  (∀ l, objGet it "sections" = some (.varr l) →
    ∃ l2, objGet it2 "sections" = some (.varr l2) ∧ l2.length = l.length ∧
      ∀ i (h1 : i < l.length) (h2 : i < l2.length),
        SectionFrame (l.get ⟨i, h1⟩) (l2.get ⟨i, h2⟩))

/-- A successful `fixItem` satisfies the item frame relation. -/
theorem fixItem_frame {it it2 : JSValue} (h : fixItem it = some it2) : ItemFrame it it2 := by
  simp only [fixItem] at h
  cases hs : summaryPhase it with
  | none => rw [hs] at h; exact absurd h (by simp)
  | some it1 =>
    rw [hs] at h
    obtain ⟨a1, a2, a3, a4⟩ := summaryPhase_spec hs
    obtain ⟨b1, b2, b3⟩ := sectionsPhase_spec h
    have hsum : objGet it2 "summary" = objGet it1 "summary" := b1 "summary" (by decide)
    have hsec : objGet it1 "sections" = objGet it "sections" := a1 "sections" (by decide)
    refine ⟨?_, ?_, ?_, ?_, ?_, ?_⟩
    · intro k hk1 hk2
      rw [b1 k hk2, a1 k hk1]
    · intro hf
      rw [hsum, a2 hf]
    · intro sv hsv htr hmv
      rw [hsum, a3 sv hsv htr hmv, hsv]
    · intro sv mv hsv htr hmv htrm
      obtain ⟨mv2, hframe, heq⟩ := a4 sv mv hsv htr hmv htrm
      exact ⟨mv2, hframe, by rw [hsum, heq]⟩
    · intro hno
      have hno1 : ∀ l, objGet it1 "sections" ≠ some (.varr l) := by
        intro l
        rw [hsec]
        exact hno l
      rw [b2 hno1, hsec]
    · intro l hl
      obtain ⟨l2, heq, hlen, hrel⟩ := b3 l (by rw [hsec]; exact hl)
      exact ⟨l2, heq, hlen, hrel⟩

/-- Frame relation of the whole response transform: every field except
`items` is unchanged; when `items` is not an array the body is returned
as-is; when it is an array it maps to an equal-length array of
`ItemFrame`-related items. Absence is preserved throughout: all clauses
are stated on `objGet`, whose `none` means the field is absent. -/
def BodyFrame (b b2 : JSValue) : Prop :=
  (∀ k, k ≠ "items" → objGet b2 k = objGet b k) ∧
  ((∀ l, objGet b "items" ≠ some (.varr l)) → b2 = b) ∧
  (∀ l, objGet b "items" = some (.varr l) →
    ∃ l2, objGet b2 "items" = some (.varr l2) ∧ l2.length = l.length ∧
      ∀ i (h1 : i < l.length) (h2 : i < l2.length),
        ItemFrame (l.get ⟨i, h1⟩) (l2.get ⟨i, h2⟩))

/-- Claim C3 (amended): whenever the transit response normalizer returns
a body (rather than throwing a TypeError), that body relates to the
input by `BodyFrame`: only the `from_time`/`to_time` fields of each
item's `summary.move` object and the truthy `from_time`/`to_time`
fields of each section whose `type` is `move` are changed, each by the
source's `addTimezone` step — a string is suffixed with `+09:00` unless
it contains `+`; an array (whose `includes` method also exists) is left
unchanged when some element is the string `+` and otherwise coerced to
its comma-join plus `+09:00` — and every other field is unchanged and
every absent field remains absent. Unlike the original claim, (a) a
present `summary.move` whose `from_time`/`to_time` is absent — or any
value without an `includes` method, such as a number or null — makes
the normalizer throw instead of returning a body, and (b) an
empty-string section time is falsy and is left unchanged rather than
suffixed. -/
theorem c3_normalizer_frame : ∀ b b2, addTimezoneBody b = some b2 → BodyFrame b b2 := by
  intro b b2 h
  cases b with
  | vundefined => simp [addTimezoneBody, jsGetProp] at h
  | vnull => simp [addTimezoneBody, jsGetProp] at h
  | vbool x =>
    simp [addTimezoneBody, jsGetProp] at h
    subst h
    exact ⟨fun _ _ => rfl, fun _ => rfl, fun l hl => by simp [objGet] at hl⟩
  | vnum x =>
    simp [addTimezoneBody, jsGetProp] at h
    subst h
    exact ⟨fun _ _ => rfl, fun _ => rfl, fun l hl => by simp [objGet] at hl⟩
  | vstr x =>
    simp [addTimezoneBody, jsGetProp] at h
    subst h
    exact ⟨fun _ _ => rfl, fun _ => rfl, fun l hl => by simp [objGet] at hl⟩
  | varr x =>
    simp [addTimezoneBody, jsGetProp] at h
    subst h
    exact ⟨fun _ _ => rfl, fun _ => rfl, fun l hl => by simp [objGet] at hl⟩
  | vobj fs =>
    cases hl : lookupField fs "items" with
    | none =>
      simp [addTimezoneBody, jsGetProp, hl] at h
      subst h
      refine ⟨fun _ _ => rfl, fun _ => rfl, ?_⟩
      intro l hcontr
      simp only [objGet] at hcontr
      rw [hl] at hcontr
      exact absurd hcontr (by simp)
    | some iv =>
      cases iv with
      | varr l0 =>
        cases hm : mapOrThrow fixItem l0 with
        | none =>
          exfalso
          simp [addTimezoneBody, jsGetProp, hl, hm] at h
        | some l2 =>
          have h1 : b2 = setProp (.vobj fs) "items" (.varr l2) := by
            simp [addTimezoneBody, jsGetProp, hl, hm] at h
            exact h.symm
          subst h1
          refine ⟨fun k hk => objGet_setProp_ne _ _ _ _ hk, ?_, ?_⟩
          · intro hno
            exact absurd (show objGet (JSValue.vobj fs) "items" = some (.varr l0) by
              simp [objGet, hl]) (hno l0)
          · intro l hll
            simp only [objGet] at hll
            rw [hl] at hll
            obtain hinj := Option.some.inj hll
            obtain rfl : l0 = l := by injection hinj
            obtain ⟨hlen, hrel⟩ :=
              @mapOrThrow_length_rel fixItem ItemFrame
                (fun a c hac => fixItem_frame hac) l0 l2 hm
            exact ⟨l2, objGet_setProp_self _ _ _, hlen, hrel⟩
      | vundefined =>
        simp [addTimezoneBody, jsGetProp, hl] at h
        subst h
        refine ⟨fun _ _ => rfl, fun _ => rfl, ?_⟩
        intro l hll
        simp only [objGet] at hll
        rw [hl] at hll
        exact absurd (Option.some.inj hll) (by simp)
      | vnull =>
        simp [addTimezoneBody, jsGetProp, hl] at h
        subst h
        refine ⟨fun _ _ => rfl, fun _ => rfl, ?_⟩
        intro l hll
        simp only [objGet] at hll
        rw [hl] at hll
        exact absurd (Option.some.inj hll) (by simp)
      | vbool x =>
        simp [addTimezoneBody, jsGetProp, hl] at h
        subst h
        refine ⟨fun _ _ => rfl, fun _ => rfl, ?_⟩
        intro l hll
        simp only [objGet] at hll
        rw [hl] at hll
        exact absurd (Option.some.inj hll) (by simp)
      | vnum x =>
        simp [addTimezoneBody, jsGetProp, hl] at h
        subst h
        refine ⟨fun _ _ => rfl, fun _ => rfl, ?_⟩
        intro l hll
        simp only [objGet] at hll
        rw [hl] at hll
        exact absurd (Option.some.inj hll) (by simp)
      | vstr x =>
        simp [addTimezoneBody, jsGetProp, hl] at h
        subst h
        refine ⟨fun _ _ => rfl, fun _ => rfl, ?_⟩
        intro l hll
        simp only [objGet] at hll
        rw [hl] at hll
        exact absurd (Option.some.inj hll) (by simp)
      | vobj gs =>
        simp [addTimezoneBody, jsGetProp, hl] at h
        subst h
        refine ⟨fun _ _ => rfl, fun _ => rfl, ?_⟩
        intro l hll
        simp only [objGet] at hll
        rw [hl] at hll
        exact absurd (Option.some.inj hll) (by simp)

/-- Claim C3 (counterexample): the claim promises that for every
upstream body the normalizer returns a body in which absent fields stay
absent, changing only time fields; but on a body whose `summary.move`
exists with `from_time` absent, `addTimezone(undefined)` throws a
TypeError and no body is returned at all. -/
theorem c3_counterexample :
    addTimezoneBody
      (.vobj [("items", .varr [.vobj [("summary", .vobj [("move", .vobj [])])]])]) = none :=
  rfl

/-- Witness for `c3_normalizer_frame` at a concrete body: the untouched
`status` field and the untouched `extra` item field are unchanged. -/
theorem c3_witness :
    objGet
        (.vobj [("items", .varr [.vobj
          [("summary", .vobj [("move", .vobj
            [("from_time", .vstr "08:00+09:00"), ("to_time", .vstr "09:10+09:00")])]),
           ("status", .vstr "OK")]])])
        "extra"
      = objGet
        (.vobj [("items", .varr [.vobj
          [("summary", .vobj [("move", .vobj
            [("from_time", .vstr "08:00"), ("to_time", .vstr "09:10+09:00")])]),
           ("status", .vstr "OK")]])])
        "extra" :=
  (c3_normalizer_frame
    (.vobj [("items", .varr [.vobj
      [("summary", .vobj [("move", .vobj
        [("from_time", .vstr "08:00"), ("to_time", .vstr "09:10+09:00")])]),
       ("status", .vstr "OK")]])])
    (.vobj [("items", .varr [.vobj
      [("summary", .vobj [("move", .vobj
        [("from_time", .vstr "08:00+09:00"), ("to_time", .vstr "09:10+09:00")])]),
       ("status", .vstr "OK")]])])
    rfl).1 "extra" (by decide)

/-- A list whose only possible slash is its last character admits no
split with a nonempty suffix. -/
theorem splitLastSlash_of_no_slash :
    ∀ l : List Char, '/' ∉ l.dropLast → splitLastSlash l = none := by
  intro l
  induction l with
  | nil => intro _; rfl
  | cons c rest ih =>
    intro h
    cases rest with
    | nil => simp [splitLastSlash]
    | cons d rest2 =>
      have hry : (c :: d :: rest2).dropLast = c :: (d :: rest2).dropLast := rfl
      rw [hry] at h
      simp only [List.mem_cons, not_or] at h
      obtain ⟨hc, hrest⟩ := h
      have hc2 : ¬(c = '/') := fun he => hc he.symm
      show (match splitLastSlash (d :: rest2) with
            | some (x, y) => some (c :: x, y)
            | none => if c = '/' ∧ (d :: rest2) ≠ [] then some ([], d :: rest2) else none) = none
      rw [ih hrest]
      simp [hc2]

/-- The greedy split of `a ++ '/' :: b`, when `b` is nonempty and has no
slash before its last character, is exactly `(a, b)`: the regex takes
the rightmost separator with a nonempty second group. -/
theorem splitLastSlash_append :
    ∀ a b : List Char, b ≠ [] → '/' ∉ b.dropLast →
      splitLastSlash (a ++ '/' :: b) = some (a, b) := by
  intro a
  induction a with
  | nil =>
    intro b hb hslash
    simp [splitLastSlash, splitLastSlash_of_no_slash b hslash, hb]
  | cons c a2 ih =>
    intro b hb hslash
    simp [splitLastSlash, ih b hb hslash]

/-- Claim C9 (amended): a URI `directions://` ++ a ++ `/` ++ b — where
b is nonempty with no slash before its last character, a is nonempty,
no line terminator occurs, and both groups decode — is accepted, and
because the first capture group is greedy the split is at the LAST
slash that leaves a nonempty second group: origin is the decoded a
(everything before that slash, slashes included) and destination is the
decoded b. In particular `directions://A/B/C` yields origin `A/B` and
destination `C`. Unlike the original claim, a rest ending in `/` does
not split at its final slash (the second group must be nonempty), so
for `directions://A/B/` the split is origin `A`, destination `B/`. -/
theorem c9_greedy_split (apiKey : String) (a b : List Char)
    (ha : a ≠ []) (hb : b ≠ []) (hslash : '/' ∉ b.dropLast)
    (hnl : (a ++ '/' :: b).all (fun c => !lineTerm c) = true)
    (o d : List Char) (ho : decodeURIChars a = some o) (hd : decodeURIChars b = some d) :
    readResourcePre apiKey (String.mk ("directions://".data ++ (a ++ '/' :: b))) =
      .httpCall ⟨"", [("origin", .vstr (String.mk o)), ("destination", .vstr (String.mk d)),
                      ("key", .vstr apiKey)]⟩ := by
  have hdata : ∀ x : List Char, (String.mk x).data = x := fun _ => rfl
  have htake : (("directions://".data ++ (a ++ '/' :: b)).take "directions://".data.length)
      = "directions://".data := List.take_left _ _
  have hdrop : (("directions://".data ++ (a ++ '/' :: b)).drop "directions://".data.length)
      = a ++ '/' :: b := List.drop_left _ _
  simp only [readResourcePre, matchDirectionsUri, decodeURIComponentM, hdata, htake, hdrop,
    if_pos rfl, hnl, splitLastSlash_append a b hb hslash, if_true, ha, if_neg ha, ite_false,
    Option.map_some]
  simp [ho, hd, ha]

/-- Claim C9 (counterexample): for the URI `directions://A/B/`, whose
rest `A/B/` contains two slashes, the claim predicts origin `A/B` (the
URL-decoded text before the last slash) and destination `` (the final
segment); the regex cannot give the last slash a nonempty second group,
backtracks, and the handler resolves origin `A`, destination `B/`. -/
theorem c9_counterexample :
    readResourcePre "K" "directions://A/B/" =
      .httpCall ⟨"", [("origin", .vstr "A"), ("destination", .vstr "B/"), ("key", .vstr "K")]⟩ ∧
    ("A" : String) ≠ "A/B" ∧ ("B/" : String) ≠ "" :=
  ⟨rfl, by decide, by decide⟩

/-- Witness for `c9_greedy_split` at the URI `directions://A/B/C`. -/
theorem c9_witness :
    readResourcePre "K" "directions://A/B/C" =
      .httpCall ⟨"", [("origin", .vstr "A/B"), ("destination", .vstr "C"), ("key", .vstr "K")]⟩ :=
  c9_greedy_split "K" "A/B".data "C".data (by decide) (by decide) (by decide) (by decide)
    "A/B".data "C".data rfl rfl
